import Mathlib

/-!
Shallow embedding of the `rustm` configuration module (`src/config.rs`):
the load / validate / persist state machine over an explicit filesystem
state, together with theorems checking the specification's claims.

Modelling conventions:
- Paths are strings.  `dirs::config_dir()` is modelled as the fixed
  location `/home/user/.config`, so the canonical configuration path is
  `/home/user/.config/rustm/config.yaml` and the temporary sibling
  (`with_extension("yaml.tmp")`) is `/home/user/.config/rustm/config.yaml.tmp`.
- The filesystem is a record of total functions: file contents, the set of
  directories, and per-path permission predicates that decide whether the
  corresponding syscall (`read_dir`, `File::create`, `read_to_string`)
  fails, plus flags for the remaining fallible operations of the persist
  protocol (`create_dir_all`, `write_all`, `sync_all`, `rename`).
- The YAML layer (`serde_norway`) is external library code; a config file's
  content is modelled at parse-outcome granularity by `Doc`: a well-formed
  mapping of string fields, a malformed document carrying the parser's
  error message, or an empty file.  Missing-field parse errors carry a
  message containing the phrase "missing field", as serde's do.
- Rust's `str::trim` is modelled by `rust_trim` (drop leading and trailing
  whitespace characters).
-/

namespace Rustm

/-- Whitespace test used by the model of Rust's `str::trim`. -/
def isWs (c : Char) : Bool := c.isWhitespace

/-- Character-list version of trimming: drop leading whitespace, then
drop trailing whitespace. -/
def trimChars (l : List Char) : List Char :=
  ((l.dropWhile isWs).reverse.dropWhile isWs).reverse

/-- Model of Rust's `str::trim`: remove leading and trailing whitespace. -/
def rust_trim (s : String) : String :=
  ⟨trimChars s.data⟩

/-- Parse-outcome view of a stored text file (the `serde_norway` layer is
external, so file contents are modelled at this granularity). -/
inductive Doc where
  /-- A well-formed YAML mapping with scalar string values. -/
  | mapping (fields : List (String × String))
  /-- A document the YAML parser rejects, with the parser's message. -/
  | malformed (msg : String)
  /-- A zero-length file (what `File::create` leaves before any write). -/
  | emptyFile
  deriving DecidableEq, Repr

/-- The persisted record (`ConfigInner` in `src/config.rs`). -/
structure ConfigInner where
  projects_directory : String
  editor_cmd : String
  deriving DecidableEq, Repr

/-- Reason the setup screen must be displayed (`SetupReason`). -/
inductive SetupReason where
  | MissingFile
  | IncompleteData
  deriving DecidableEq, Repr

/-- Status returned when attempting to load config (`LoadStatus`). -/
inductive LoadStatus where
  | Ready (config : ConfigInner)
  | NeedsInitialSetup (reason : SetupReason)
  deriving DecidableEq, Repr

/-- Load failures (`LoadError`); I/O errors carry their message. -/
inductive LoadError where
  | Corrupt (msg : String)
  | Io (msg : String)
  deriving DecidableEq, Repr

/-- Validation errors for user-provided values (`ValidationError`). -/
inductive ValidationError where
  | EmptyField (field : String)
  | ProjectsDirDoesNotExist (path : String)
  | ProjectsDirNotDirectory (path : String)
  | ProjectsDirNotWritable (path : String)
  | ProjectsDirNotReadable (path : String)
  deriving DecidableEq, Repr

/-- Save failures (`SaveError`). -/
inductive SaveError where
  | Io (msg : String)
  | Serialize (msg : String)
  | Validation (e : ValidationError)
  deriving DecidableEq, Repr

/-- Explicit filesystem state threaded through the embedded operations. -/
structure FileSys where
  /-- Content of the file at a path, if a file exists there. -/
  files : String → Option Doc
  /-- Whether a directory exists at a path. -/
  dirs : String → Bool
  /-- Whether `fs::read_dir` fails on this path (permission). -/
  readDirDenied : String → Bool
  /-- Whether `fs::File::create` fails at this file path (permission
  of the containing directory). -/
  createFileDenied : String → Bool
  /-- Whether `fs::read_to_string` fails on this file path. -/
  readFileDenied : String → Bool
  /-- Whether `fs::create_dir_all` fails. -/
  createDirFails : Bool
  /-- Whether `Write::write_all` fails. -/
  writeAllFails : Bool
  /-- Whether `File::sync_all` fails. -/
  syncFails : Bool
  /-- Whether `fs::rename` fails. -/
  renameFails : Bool

/-- Whether `Path::exists` holds: a file or a directory is present. -/
def pathExists (fs : FileSys) (p : String) : Bool :=
  fs.dirs p || (fs.files p).isSome

/-- Record update: put a file with the given content at a path
(`File::create` truncates, a later write replaces the content). -/
def createFile (fs : FileSys) (p : String) (d : Doc) : FileSys :=
  { fs with files := fun q => if q = p then some d else fs.files q }

/-- Record update: remove the file at a path. -/
def removeFile (fs : FileSys) (p : String) : FileSys :=
  { fs with files := fun q => if q = p then none else fs.files q }

/-- Content of the file at a path. -/
def lookupFile (fs : FileSys) (p : String) : Option Doc :=
  fs.files p

/-- Platform configuration directory joined with the app subdirectory
(`app_config_dir`), with `dirs::config_dir()` fixed to
`/home/user/.config`. -/
def app_config_dir : String := "/home/user/.config/rustm"

/-- Canonical path of `config.yaml` (`config_file_path`). -/
def config_file_path : String := app_config_dir ++ "/config.yaml"

/-- Temporary sibling used by the persist protocol:
`config_file_path().with_extension("yaml.tmp")`. -/
def tmp_file_path : String := app_config_dir ++ "/config.yaml.tmp"

/-- Probe file used by the writability check:
`path.join(".rustm_write_probe")`. -/
def probe_path (dir : String) : String := dir ++ "/.rustm_write_probe"

/-- Embedding of `validate_projects_directory`, returning the result
together with the filesystem after the probe create/remove cycle. -/
def validate_projects_directory (fs : FileSys) (path : String) :
    Except ValidationError Unit × FileSys :=
  if path = "" then
    (.error (.EmptyField "projects_directory"), fs)
  else if !pathExists fs path then
    (.error (.ProjectsDirDoesNotExist path), fs)
  else if !fs.dirs path then
    (.error (.ProjectsDirNotDirectory path), fs)
  else if fs.readDirDenied path then
    (.error (.ProjectsDirNotReadable path), fs)
  else if fs.createFileDenied (probe_path path) then
    (.error (.ProjectsDirNotWritable path), fs)
  else
    (.ok (), removeFile (createFile fs (probe_path path) .emptyFile) (probe_path path))

/-- Whether the first list is an initial segment of the second. -/
def isPrefixChars : List Char → List Char → Bool
  | [], _ => true
  | _ :: _, [] => false
  | a :: as, b :: bs => a == b && isPrefixChars as bs

/-- Whether `pat` occurs as a contiguous run inside the second list. -/
def containsSub (pat : List Char) : List Char → Bool
  | [] => isPrefixChars pat []
  | b :: bs => isPrefixChars pat (b :: bs) || containsSub pat bs

/-- Heuristic of `looks_like_missing_field`: the serde message contains
the substring "missing field" (Rust `str::contains`). -/
def looks_like_missing_field (msg : String) : Bool :=
  containsSub "missing field".data msg.data

/-- Model of `serde_norway::from_str::<ConfigInner>` on a parse-outcome
document: a mapping yields the two required fields or a missing-field
message; a malformed document yields its parser message. -/
def parseConfig (d : Doc) : Except String ConfigInner :=
  match d with
  | .mapping fields =>
    match fields.lookup "projects_directory" with
    | none => .error "missing field projects_directory"
    | some pd =>
      match fields.lookup "editor_cmd" with
      | none => .error "missing field editor_cmd"
      | some ec => .ok ⟨pd, ec⟩
  | .malformed msg => .error msg
  | .emptyFile => .error "EOF while parsing a value"

/-- Model of `serde_norway::to_string` on `ConfigInner` (cannot fail for
two plain strings). -/
def serializeConfig (inner : ConfigInner) : Doc :=
  .mapping [("projects_directory", inner.projects_directory),
            ("editor_cmd", inner.editor_cmd)]

/-- Model of `fs::read_to_string`. -/
def read_to_string (fs : FileSys) (p : String) : Except String Doc :=
  if fs.readFileDenied p then .error "permission denied"
  else
    match fs.files p with
    | some d => .ok d
    | none => .error "is a directory"

/-- Embedding of `Config::load`, returning the result with the
filesystem after the validator's probe cycle. -/
def load (fs : FileSys) : Except LoadError LoadStatus × FileSys :=
  if !pathExists fs config_file_path then
    (.ok (.NeedsInitialSetup .MissingFile), fs)
  else
    match read_to_string fs config_file_path with
    | .error msg => (.error (.Io msg), fs)
    | .ok d =>
      match parseConfig d with
      | .ok inner =>
        if rust_trim inner.projects_directory = "" then
          (.ok (.NeedsInitialSetup .IncompleteData), fs)
        else if rust_trim inner.editor_cmd = "" then
          (.ok (.NeedsInitialSetup .IncompleteData), fs)
        else
          match validate_projects_directory fs inner.projects_directory with
          | (.error _, fs₁) => (.ok (.NeedsInitialSetup .IncompleteData), fs₁)
          | (.ok _, fs₁) => (.ok (.Ready inner), fs₁)
      | .error msg =>
        if looks_like_missing_field msg then
          (.ok (.NeedsInitialSetup .IncompleteData), fs)
        else
          (.error (.Corrupt msg), fs)

/-- Model of `fs::create_dir_all` on the configuration parent. -/
def create_dir_all (fs : FileSys) (p : String) : Except String FileSys :=
  if fs.createDirFails then .error "create_dir_all failed"
  else .ok { fs with dirs := fun q => if q = p then true else fs.dirs q }

/-- Model of `fs::File::create` (truncates to an empty file). -/
def file_create (fs : FileSys) (p : String) : Except String FileSys :=
  if fs.createFileDenied p then .error "File create failed"
  else .ok (createFile fs p .emptyFile)

/-- Model of `Write::write_all` into an open file. -/
def write_all (fs : FileSys) (p : String) (d : Doc) : Except String FileSys :=
  if fs.writeAllFails then .error "write_all failed"
  else .ok (createFile fs p d)

/-- Model of `File::sync_all` (no state change in the model; only the
reported success or failure matters). -/
def sync_all (fs : FileSys) : Except String FileSys :=
  if fs.syncFails then .error "sync_all failed"
  else .ok fs

/-- Persist protocol's sync step: the source runs `f.sync_all().ok()`,
discarding any sync error, so the state is unchanged either way. -/
def sync_step (fs : FileSys) : FileSys :=
  match sync_all fs with
  | .ok f => f
  | .error _ => fs

/-- Model of `fs::rename src dst`. -/
def rename (fs : FileSys) (src dst : String) : Except String FileSys :=
  if fs.renameFails then .error "rename failed"
  else
    match fs.files src with
    | none => .error "rename source missing"
    | some d => .ok (removeFile (createFile fs dst d) src)

/-- Embedding of `Config::create_and_persist`: validate, serialize, then
run the durability protocol (create parent dir, write a temporary
sibling, sync with the result ignored — `f.sync_all().ok()` — and rename
over the target). -/
def create_and_persist (fs : FileSys) (pd ec : String) :
    Except SaveError ConfigInner × FileSys :=
  if rust_trim ec = "" then
    (.error (.Validation (.EmptyField "editor_cmd")), fs)
  else
    match validate_projects_directory fs pd with
    | (.error e, fs₁) => (.error (.Validation e), fs₁)
    | (.ok _, fs₁) =>
      let inner : ConfigInner := ⟨pd, rust_trim ec⟩
      let yaml := serializeConfig inner
      match create_dir_all fs₁ app_config_dir with
      | .error msg => (.error (.Io msg), fs₁)
      | .ok fs₂ =>
        match file_create fs₂ tmp_file_path with
        | .error msg => (.error (.Io msg), fs₂)
        | .ok fs₃ =>
          match write_all fs₃ tmp_file_path yaml with
          | .error msg => (.error (.Io msg), fs₃)
          | .ok fs₄ =>
            let fs₅ := sync_step fs₄
            match rename fs₅ tmp_file_path config_file_path with
            | .error msg => (.error (.Io msg), fs₅)
            | .ok fs₆ => (.ok inner, fs₆)

/-- Test fixture: a filesystem whose only entry is the directory `/p`,
with no permission failures and no environmental I/O failures. -/
def fsOk : FileSys where
  files := fun _ => none
  dirs := fun q => q == "/p"
  readDirDenied := fun _ => false
  createFileDenied := fun _ => false
  readFileDenied := fun _ => false
  createDirFails := false
  writeAllFails := false
  syncFails := false
  renameFails := false

/-- Test fixture: the only directory is one literally named by a single
space character (legal on POSIX filesystems). -/
def fsWsDir : FileSys := { fsOk with dirs := fun q => q == " " }

/-- Test fixture: like `fsOk` but `File::sync_all` fails. -/
def fsSyncFail : FileSys := { fsOk with syncFails := true }

/-- Test fixture: a configuration file whose `editor_cmd` value carries
surrounding whitespace, next to an existing valid directory `/p`. -/
def fsUntrimmed : FileSys :=
  { fsOk with
    files := fun q =>
      if q = config_file_path then
        some (.mapping [("projects_directory", "/p"), ("editor_cmd", " code ")])
      else none }

/-- Test fixture: a configuration file missing a required field. -/
def fsMissingField : FileSys :=
  { fsOk with
    files := fun q =>
      if q = config_file_path then some (.mapping [("editor_cmd", "code")])
      else none }

/-- Test fixture: a malformed configuration file. -/
def fsMalformed : FileSys :=
  { fsOk with
    files := fun q =>
      if q = config_file_path then some (.malformed "did not find expected key")
      else none }

/-- Test fixture: the directory `/p` already contains a file named
`.rustm_write_probe`. -/
def fsProbePresent : FileSys :=
  { fsOk with
    files := fun q =>
      if q = probe_path "/p" then some (.mapping [("x", "y")]) else none }

/-- Test fixture: a well-formed configuration file pointing at a
directory that no longer exists. -/
def fsDirGone : FileSys :=
  { fsOk with
    files := fun q =>
      if q = config_file_path then
        some (.mapping [("projects_directory", "/gone"), ("editor_cmd", "code")])
      else none }

/-- Test fixture: like `fsOk` but `create_dir_all` fails. -/
def fsMkdirFail : FileSys := { fsOk with createDirFails := true }

/-- The serde wrong-type message produced by a configuration file whose
whole content is the bare scalar `missing field x`: serde quotes the
offending scalar, so this non-missing-field failure embeds the phrase
"missing field" in its message. -/
def spoofedTypeErrorMsg : String :=
  "invalid type: string \"missing field x\", expected struct ConfigInner"

/-- Test fixture: a configuration file holding the bare scalar
`missing field x`, which fails to parse with `spoofedTypeErrorMsg`. -/
def fsSpoofed : FileSys :=
  { fsOk with
    files := fun q =>
      if q = config_file_path then some (.malformed spoofedTypeErrorMsg)
      else none }

/-! ## Helper lemmas -/

theorem dropWhile_self_idem (p : Char → Bool) (l : List Char) :
    (l.dropWhile p).dropWhile p = l.dropWhile p := by
  cases h : l.dropWhile p with
  | nil => rfl
  | cons a t =>
    have hne : l.dropWhile p ≠ [] := by simp [h]
    have ha := List.head_dropWhile_not p l hne
    have hhead : (l.dropWhile p).head hne = a := by
      have h1 : (l.dropWhile p).head? = some a := by rw [h]; rfl
      have h2 := List.head?_eq_head hne
      rw [h2] at h1
      exact Option.some.inj h1
    rw [hhead] at ha
    exact List.dropWhile_cons_of_neg (by simp [ha])

theorem trimChars_idem (l : List Char) : trimChars (trimChars l) = trimChars l := by
  unfold trimChars
  obtain ⟨w, hw⟩ :=
    List.dropWhile_suffix (p := isWs) (l := (l.dropWhile isWs).reverse)
  have hA : l.dropWhile isWs
      = ((l.dropWhile isWs).reverse.dropWhile isWs).reverse ++ w.reverse := by
    conv_lhs => rw [← List.reverse_reverse (l.dropWhile isWs), ← hw]
    rw [List.reverse_append]
  have hstep1 : (((l.dropWhile isWs).reverse.dropWhile isWs).reverse).dropWhile isWs
      = ((l.dropWhile isWs).reverse.dropWhile isWs).reverse := by
    cases ht : ((l.dropWhile isWs).reverse.dropWhile isWs).reverse with
    | nil => rfl
    | cons a t' =>
      rw [ht] at hA
      have hne : l.dropWhile isWs ≠ [] := by rw [hA]; simp
      have ha := List.head_dropWhile_not isWs l hne
      have hhead : (l.dropWhile isWs).head hne = a := by
        have h1 : (l.dropWhile isWs).head? = some a := by rw [hA]; rfl
        have h2 := List.head?_eq_head hne
        rw [h2] at h1
        exact Option.some.inj h1
      rw [hhead] at ha
      exact List.dropWhile_cons_of_neg (by simp [ha])
  rw [hstep1, List.reverse_reverse, dropWhile_self_idem]

theorem rust_trim_idem (s : String) : rust_trim (rust_trim s) = rust_trim s := by
  unfold rust_trim
  exact congrArg String.mk (trimChars_idem s.data)

theorem rust_trim_empty : rust_trim "" = "" := rfl

/-- Last character of an appended string, as an option. -/
theorem string_append_getLast (s t : String) :
    (s ++ t).data.getLast? = t.data.getLast?.or s.data.getLast? := by
  rw [String.data_append, List.getLast?_append]

theorem probe_path_ne_config (pd : String) : probe_path pd ≠ config_file_path := by
  intro h
  have hd : (probe_path pd).data.getLast? = config_file_path.data.getLast? := by rw [h]
  rw [show probe_path pd = pd ++ "/.rustm_write_probe" from rfl,
    string_append_getLast] at hd
  simp only [show ("/.rustm_write_probe" : String).data.getLast? = some 'e' from rfl,
    Option.or_some] at hd
  exact absurd hd (by decide)

theorem probe_path_ne_tmp (pd : String) : probe_path pd ≠ tmp_file_path := by
  intro h
  have hd : (probe_path pd).data.getLast? = tmp_file_path.data.getLast? := by rw [h]
  rw [show probe_path pd = pd ++ "/.rustm_write_probe" from rfl,
    string_append_getLast] at hd
  simp only [show ("/.rustm_write_probe" : String).data.getLast? = some 'e' from rfl,
    Option.or_some] at hd
  exact absurd hd (by decide)

theorem config_ne_tmp : config_file_path ≠ tmp_file_path := by decide

/-- Either the validator fails and leaves the filesystem untouched, or it
succeeds and performs exactly the probe create/remove cycle. -/
theorem validate_cases (fs : FileSys) (path : String) :
    (∃ e, validate_projects_directory fs path = (.error e, fs)) ∨
      validate_projects_directory fs path =
        (.ok (), removeFile (createFile fs (probe_path path) .emptyFile)
          (probe_path path)) := by
  unfold validate_projects_directory
  repeat' split
  all_goals first
    | exact Or.inl ⟨_, rfl⟩
    | exact Or.inr rfl

/-- The validator only ever touches the `files` component of the state. -/
theorem validate_snd_files_only (fs : FileSys) (path : String) :
    ∃ g, (validate_projects_directory fs path).snd = { fs with files := g } := by
  rcases validate_cases fs path with ⟨e, heq⟩ | heq <;> rw [heq]
  · exact ⟨fs.files, rfl⟩
  · exact ⟨_, rfl⟩

theorem validate_error_snd (fs : FileSys) (path : String) (e : ValidationError)
    (h : (validate_projects_directory fs path).fst = .error e) :
    (validate_projects_directory fs path).snd = fs := by
  rcases validate_cases fs path with ⟨e', heq⟩ | heq
  · rw [heq]
  · rw [heq] at h
    exact absurd h (by simp)

theorem validate_ok_eq (fs : FileSys) (path : String)
    (h : (validate_projects_directory fs path).fst = .ok ()) :
    validate_projects_directory fs path =
      (.ok (), removeFile (createFile fs (probe_path path) .emptyFile)
        (probe_path path)) := by
  rcases validate_cases fs path with ⟨e', heq⟩ | heq
  · rw [heq] at h
    exact absurd h (by simp)
  · exact heq

/-- Fully successful validation, computed from the five checks. -/
theorem validate_ok_of (fs : FileSys) (path : String)
    (hne : path ≠ "") (hdir : fs.dirs path = true)
    (hrd : fs.readDirDenied path = false)
    (hwr : fs.createFileDenied (probe_path path) = false) :
    validate_projects_directory fs path =
      (.ok (), removeFile (createFile fs (probe_path path) .emptyFile)
        (probe_path path)) := by
  have hex : pathExists fs path = true := by simp [pathExists, hdir]
  unfold validate_projects_directory
  rw [if_neg hne]
  simp [hex, hdir, hrd, hwr]

theorem sync_step_eq (fs : FileSys) : sync_step fs = fs := by
  unfold sync_step sync_all
  cases h : fs.syncFails <;> simp

/-- Successful validation implies each of the five checks passed. -/
theorem validate_ok_inv (fs : FileSys) (path : String)
    (h : (validate_projects_directory fs path).fst = .ok ()) :
    path ≠ "" ∧ fs.dirs path = true ∧ fs.readDirDenied path = false
      ∧ fs.createFileDenied (probe_path path) = false := by
  unfold validate_projects_directory at h
  repeat' split at h
  all_goals simp_all

/-- Validation of a nonexistent, nonempty path. -/
theorem validate_missing_eq (fs : FileSys) (path : String)
    (hne : path ≠ "") (hex : pathExists fs path = false) :
    validate_projects_directory fs path =
      (.error (.ProjectsDirDoesNotExist path), fs) := by
  unfold validate_projects_directory
  rw [if_neg hne]
  simp [hex]

/-! ## Claim theorems -/

/-- C4: `validate_projects_directory` runs its five checks in the fixed
order empty-field, directory-missing, not-a-directory, not-readable,
not-writable; the first failing check short-circuits, so exactly one
fault is reported per call, and a nonexistent path always yields
`ProjectsDirDoesNotExist`, never the readability or writability faults,
whatever the permission state. -/
theorem validate_check_order (fs : FileSys) (path : String) :
    (path = "" →
      (validate_projects_directory fs path).fst
        = .error (.EmptyField "projects_directory"))
  ∧ (path ≠ "" → pathExists fs path = false →
      (validate_projects_directory fs path).fst
        = .error (.ProjectsDirDoesNotExist path))
  ∧ (path ≠ "" → pathExists fs path = true → fs.dirs path = false →
      (validate_projects_directory fs path).fst
        = .error (.ProjectsDirNotDirectory path))
  ∧ (path ≠ "" → fs.dirs path = true → fs.readDirDenied path = true →
      (validate_projects_directory fs path).fst
        = .error (.ProjectsDirNotReadable path))
  ∧ (path ≠ "" → fs.dirs path = true → fs.readDirDenied path = false →
      fs.createFileDenied (probe_path path) = true →
      (validate_projects_directory fs path).fst
        = .error (.ProjectsDirNotWritable path))
  ∧ (path ≠ "" → fs.dirs path = true → fs.readDirDenied path = false →
      fs.createFileDenied (probe_path path) = false →
      (validate_projects_directory fs path).fst = .ok ()) := by
  refine ⟨fun h1 => ?_, fun h1 h2 => ?_, fun h1 h2 h3 => ?_,
    fun h1 h2 h3 => ?_, fun h1 h2 h3 h4 => ?_, fun h1 h2 h3 h4 => ?_⟩
  · simp [validate_projects_directory, h1]
  · simp [validate_projects_directory, h1, h2]
  · simp [validate_projects_directory, h1, h2, h3]
  · simp [validate_projects_directory, pathExists, h1, h2, h3]
  · simp [validate_projects_directory, pathExists, h1, h2, h3, h4]
  · simp [validate_projects_directory, pathExists, h1, h2, h3, h4]

/-- C4 witness: a nonexistent path on the concrete fixture reports
`ProjectsDirDoesNotExist`. -/
theorem validate_check_order_witness :
    (validate_projects_directory fsOk "/nope").fst
      = .error (.ProjectsDirDoesNotExist "/nope") :=
  (validate_check_order fsOk "/nope").2.1 (by decide) (by rfl)

/-- C9: the validator's result is a function of the filesystem state and
the path — identical states give identical results — and the result is
stable across repetition: re-running it on the state its own probe cycle
left behind returns the same outcome. -/
theorem validate_deterministic :
    (∀ fs₁ fs₂ path, fs₁ = fs₂ →
      (validate_projects_directory fs₁ path).fst
        = (validate_projects_directory fs₂ path).fst)
  ∧ (∀ fs path,
      (validate_projects_directory
        (validate_projects_directory fs path).snd path).fst
        = (validate_projects_directory fs path).fst) := by
  constructor
  · intro fs₁ fs₂ path h
    rw [h]
  · intro fs path
    rcases validate_cases fs path with ⟨e, heq⟩ | heq
    · rw [heq]
      exact congrArg Prod.fst heq
    · have hfst : (validate_projects_directory fs path).fst = .ok () := by
        rw [heq]
      obtain ⟨hne, hdir, hrd, hwr⟩ := validate_ok_inv fs path hfst
      have hR := validate_ok_of
        (removeFile (createFile fs (probe_path path) Doc.emptyFile) (probe_path path))
        path hne hdir hrd hwr
      rw [heq]
      show (validate_projects_directory
        (removeFile (createFile fs (probe_path path) Doc.emptyFile) (probe_path path))
        path).fst = Except.ok ()
      rw [hR]

/-- C9 witness: instantiation at a concrete state and path. -/
theorem validate_deterministic_witness :
    (validate_projects_directory fsOk "/p").fst
      = (validate_projects_directory fsOk "/p").fst :=
  validate_deterministic.1 fsOk fsOk "/p" rfl

/-- C10: the writability probe uses the fixed name `.rustm_write_probe`
inside the candidate directory; when a file of that name already exists,
a successful validation runs the probe create/remove cycle on it — the
create truncates it to an empty file and the removal deletes it — so the
directory's contents after validation differ from before. -/
theorem validate_probe_overwrites (fs : FileSys) (dir : String) (c : Doc)
    (hpre : lookupFile fs (probe_path dir) = some c)
    (hok : (validate_projects_directory fs dir).fst = .ok ()) :
    (validate_projects_directory fs dir).snd
        = removeFile (createFile fs (probe_path dir) .emptyFile) (probe_path dir)
  ∧ lookupFile (createFile fs (probe_path dir) .emptyFile) (probe_path dir)
      = some .emptyFile
  ∧ lookupFile (validate_projects_directory fs dir).snd (probe_path dir) = none
  ∧ lookupFile (validate_projects_directory fs dir).snd (probe_path dir)
      ≠ lookupFile fs (probe_path dir) := by
  have heq := validate_ok_eq fs dir hok
  refine ⟨by rw [heq], ?_, ?_, ?_⟩
  · simp [lookupFile, createFile]
  · rw [heq]
    simp [lookupFile, removeFile]
  · have hpre' : fs.files (probe_path dir) = some c := hpre
    rw [heq]
    simp [lookupFile, removeFile, hpre']

/-- C10 witness: a pre-existing probe file disappears after successful
validation of the concrete fixture. -/
theorem validate_probe_overwrites_witness :
    lookupFile (validate_projects_directory fsProbePresent "/p").snd
      (probe_path "/p") = none :=
  (validate_probe_overwrites fsProbePresent "/p" (.mapping [("x", "y")])
    (by rfl) (by rfl)).2.2.1

/-- Loading when the configuration file is present and readable reduces
to the parse-and-validate phase on its content. -/
theorem load_config_eq (fs : FileSys) (d : Doc)
    (hd : lookupFile fs config_file_path = some d)
    (hrf : fs.readFileDenied config_file_path = false) :
    load fs = (match parseConfig d with
      | .ok inner =>
        if rust_trim inner.projects_directory = "" then
          ((.ok (.NeedsInitialSetup .IncompleteData) : Except LoadError LoadStatus), fs)
        else if rust_trim inner.editor_cmd = "" then
          (.ok (.NeedsInitialSetup .IncompleteData), fs)
        else
          match validate_projects_directory fs inner.projects_directory with
          | (.error _, fs₁) => (.ok (.NeedsInitialSetup .IncompleteData), fs₁)
          | (.ok _, fs₁) => (.ok (.Ready inner), fs₁)
      | .error msg =>
        if looks_like_missing_field msg then
          (.ok (.NeedsInitialSetup .IncompleteData), fs)
        else
          (.error (.Corrupt msg), fs)) := by
  have hd' : fs.files config_file_path = some d := hd
  have hex : pathExists fs config_file_path = true := by
    simp [pathExists, hd']
  have hread : read_to_string fs config_file_path = .ok d := by
    simp [read_to_string, hrf, hd']
  unfold load
  rw [if_neg (by simp [hex]), hread]

/-- C5 counterexample: a projects_directory consisting of a single space
is blank under trimming, yet the validator and `create_and_persist`
report a directory fault (`ProjectsDirDoesNotExist`), not the
`EmptyField` fault the claim requires. -/
theorem blankness_rule_cex :
    rust_trim " " = ""
  ∧ (validate_projects_directory fsOk " ").fst
      = .error (.ProjectsDirDoesNotExist " ")
  ∧ (create_and_persist fsOk " " "code").fst
      = .error (.Validation (.ProjectsDirDoesNotExist " ")) :=
  ⟨rfl, rfl, rfl⟩

/-- C5 amended: the Loader applies the trim-blankness rule to both
fields before any directory check, and `create_and_persist` applies it
to `editor_cmd`; but the directory validator flags only the
exactly-empty path string as `EmptyField`, so a whitespace-only
`projects_directory` given to `create_and_persist` is handled by the
directory checks (`ProjectsDirDoesNotExist` when no such directory
exists) rather than reported as `EmptyField`. -/
theorem blankness_rule_amended :
    (∀ fs d inner, lookupFile fs config_file_path = some d →
      fs.readFileDenied config_file_path = false →
      parseConfig d = .ok inner →
      rust_trim inner.projects_directory = "" →
      (load fs).fst = .ok (.NeedsInitialSetup .IncompleteData))
  ∧ (∀ fs d inner, lookupFile fs config_file_path = some d →
      fs.readFileDenied config_file_path = false →
      parseConfig d = .ok inner →
      rust_trim inner.editor_cmd = "" →
      (load fs).fst = .ok (.NeedsInitialSetup .IncompleteData))
  ∧ (∀ fs pd ec, rust_trim ec = "" →
      (create_and_persist fs pd ec).fst
        = .error (.Validation (.EmptyField "editor_cmd")))
  ∧ (∀ fs, (validate_projects_directory fs "").fst
        = .error (.EmptyField "projects_directory"))
  ∧ (∀ fs pd ec, rust_trim pd = "" → pd ≠ "" → pathExists fs pd = false →
      rust_trim ec ≠ "" →
      (create_and_persist fs pd ec).fst
        = .error (.Validation (.ProjectsDirDoesNotExist pd))) := by
  refine ⟨?_, ?_, ?_, ?_, ?_⟩
  · intro fs d inner hd hrf hp htrim
    rw [load_config_eq fs d hd hrf, hp]
    simp [htrim]
  · intro fs d inner hd hrf hp htrim
    rw [load_config_eq fs d hd hrf, hp]
    by_cases h1 : rust_trim inner.projects_directory = "" <;> simp [h1, htrim]
  · intro fs pd ec h
    unfold create_and_persist
    rw [if_pos h]
  · intro fs
    unfold validate_projects_directory
    rw [if_pos rfl]
  · intro fs pd ec htrim hne hex hec
    unfold create_and_persist
    rw [if_neg hec, validate_missing_eq fs pd hne hex]

/-- C5 witness: a blank editor command is rejected as `EmptyField`
before any disk access. -/
theorem blankness_rule_witness :
    (create_and_persist fsOk "/p" "   ").fst
      = .error (.Validation (.EmptyField "editor_cmd")) :=
  blankness_rule_amended.2.2.1 fsOk "/p" "   " (by rfl)

/-- C3 counterexample: the classification is decided by the substring
heuristic, not by the parser's actual report. A file holding the bare
scalar `missing field x` fails with a wrong-type error — not a
missing-field report — yet its message quotes the scalar, the heuristic
fires, and `load` returns `NeedsInitialSetup IncompleteData` instead of
the `Corrupt` the claim requires for every non-missing-field failure. -/
theorem parse_failure_classified_cex :
    parseConfig (.malformed spoofedTypeErrorMsg) = .error spoofedTypeErrorMsg
  ∧ looks_like_missing_field spoofedTypeErrorMsg = true
  ∧ (load fsSpoofed).fst = .ok (.NeedsInitialSetup .IncompleteData) :=
  ⟨rfl, by decide, rfl⟩

/-- C3 amended: for an existing readable configuration file that fails
to parse, `load` classifies by the message heuristic: the outcome is
`NeedsInitialSetup IncompleteData` exactly when the parser's message
contains the phrase "missing field", and `Corrupt` with the parser's
message exactly otherwise. A failing parse of a well-formed mapping is
always such a missing-field message, and a malformed document is
`Corrupt` only when its message does not embed the phrase — one that
quotes file content containing it is classified `IncompleteData`. -/
theorem parse_failure_classified (fs : FileSys) (d : Doc) (msg : String)
    (hd : lookupFile fs config_file_path = some d)
    (hrf : fs.readFileDenied config_file_path = false)
    (hp : parseConfig d = .error msg) :
    ((load fs).fst = .ok (.NeedsInitialSetup .IncompleteData)
        ↔ looks_like_missing_field msg = true)
  ∧ ((load fs).fst = .error (.Corrupt msg)
        ↔ looks_like_missing_field msg = false)
  ∧ (∀ fields, d = .mapping fields → looks_like_missing_field msg = true)
  ∧ (∀ m, d = .malformed m → looks_like_missing_field m = false →
      (load fs).fst = .error (.Corrupt m)) := by
  have hload : (load fs).fst
      = if looks_like_missing_field msg then
          .ok (.NeedsInitialSetup .IncompleteData)
        else .error (.Corrupt msg) := by
    rw [load_config_eq fs d hd hrf, hp]
    by_cases hb : looks_like_missing_field msg <;> simp [hb]
  refine ⟨?_, ?_, ?_, ?_⟩
  · cases hb : looks_like_missing_field msg <;> simp [hload, hb]
  · cases hb : looks_like_missing_field msg <;> simp [hload, hb]
  · intro fields hdm
    subst hdm
    simp only [parseConfig] at hp
    rcases h1 : fields.lookup "projects_directory" with _ | pd
    · rw [h1] at hp
      have hmsg : "missing field projects_directory" = msg := by simpa using hp
      rw [← hmsg]
      decide
    · rw [h1] at hp
      rcases h2 : fields.lookup "editor_cmd" with _ | ec
      · rw [h2] at hp
        have hmsg : "missing field editor_cmd" = msg := by simpa using hp
        rw [← hmsg]
        decide
      · rw [h2] at hp
        exact absurd hp (by simp)
  · intro m hdm hm
    subst hdm
    have hmsg : m = msg := by simpa [parseConfig] using hp
    rw [hmsg] at hm
    rw [hmsg, hload, if_neg (by simp [hm])]

/-- C3 witness: a file missing the `projects_directory` key loads as
`NeedsInitialSetup IncompleteData`. -/
theorem parse_failure_classified_witness :
    (load fsMissingField).fst = .ok (.NeedsInitialSetup .IncompleteData) :=
  (parse_failure_classified fsMissingField (.mapping [("editor_cmd", "code")])
    "missing field projects_directory" (by rfl) rfl (by rfl)).1.mpr (by decide)

/-- C7: a configuration file that parses but fails field or directory
validation loads as `NeedsInitialSetup IncompleteData` — the fault never
surfaces as a `LoadError`. -/
theorem validation_fault_downgrades (fs : FileSys) (d : Doc) (inner : ConfigInner)
    (hd : lookupFile fs config_file_path = some d)
    (hrf : fs.readFileDenied config_file_path = false)
    (hp : parseConfig d = .ok inner)
    (hfault : rust_trim inner.projects_directory = ""
      ∨ rust_trim inner.editor_cmd = ""
      ∨ (validate_projects_directory fs inner.projects_directory).fst ≠ .ok ()) :
    (load fs).fst = .ok (.NeedsInitialSetup .IncompleteData) := by
  rw [load_config_eq fs d hd hrf, hp]
  by_cases h1 : rust_trim inner.projects_directory = ""
  · simp [h1]
  by_cases h2 : rust_trim inner.editor_cmd = ""
  · simp [h1, h2]
  have h3 : (validate_projects_directory fs inner.projects_directory).fst ≠ .ok () := by
    rcases hfault with h | h | h
    · exact absurd h h1
    · exact absurd h h2
    · exact h
  cases hv : (validate_projects_directory fs inner.projects_directory).fst with
  | error e =>
    have hpair := (Prod.mk.eta
      (p := validate_projects_directory fs inner.projects_directory)).symm
    rw [hv] at hpair
    simp only [if_neg h1, if_neg h2]
    rw [hpair]
  | ok u =>
    cases u
    exact absurd hv h3

/-- C7 witness: a parseable file whose directory no longer exists loads
as `NeedsInitialSetup IncompleteData`. -/
theorem validation_fault_downgrades_witness :
    (load fsDirGone).fst = .ok (.NeedsInitialSetup .IncompleteData) :=
  validation_fault_downgrades fsDirGone
    (.mapping [("projects_directory", "/gone"), ("editor_cmd", "code")])
    ⟨"/gone", "code"⟩ (by rfl) rfl (by rfl)
    (Or.inr (Or.inr (fun h => Except.noConfusion h)))

/-- The validator never touches the canonical configuration file. -/
theorem lookup_validate_snd (fs : FileSys) (pd : String) :
    lookupFile (validate_projects_directory fs pd).snd config_file_path
      = lookupFile fs config_file_path := by
  have hcp := (probe_path_ne_config pd).symm
  rcases validate_cases fs pd with ⟨e, heq⟩ | heq
  · rw [heq]
  · rw [heq]
    simp [lookupFile, removeFile, createFile, hcp]

/-- Creating the parent directory never touches the canonical file. -/
theorem lookup_mkdir (fs fs' : FileSys)
    (h : create_dir_all fs app_config_dir = .ok fs') :
    lookupFile fs' config_file_path = lookupFile fs config_file_path := by
  unfold create_dir_all at h
  split at h
  · exact absurd h (by simp)
  · injection h with h
    subst h
    rfl

/-- Creating the temporary sibling never touches the canonical file. -/
theorem lookup_tmp_create (fs fs' : FileSys)
    (h : file_create fs tmp_file_path = .ok fs') :
    lookupFile fs' config_file_path = lookupFile fs config_file_path := by
  unfold file_create at h
  split at h
  · exact absurd h (by simp)
  · injection h with h
    subst h
    simp [lookupFile, createFile, config_ne_tmp]

/-- Writing into the temporary sibling never touches the canonical file. -/
theorem lookup_write (fs fs' : FileSys) (d : Doc)
    (h : write_all fs tmp_file_path d = .ok fs') :
    lookupFile fs' config_file_path = lookupFile fs config_file_path := by
  unfold write_all at h
  split at h
  · exact absurd h (by simp)
  · injection h with h
    subst h
    simp [lookupFile, createFile, config_ne_tmp]

/-- A successful rename publishes exactly the temporary file's content
under the canonical name. -/
theorem lookup_rename (fs fs' : FileSys)
    (h : rename fs tmp_file_path config_file_path = .ok fs') :
    lookupFile fs' config_file_path = lookupFile fs tmp_file_path := by
  unfold rename at h
  split at h
  · exact absurd h (by simp)
  · split at h
    · exact absurd h (by simp)
    · next d heq =>
      injection h with h
      subst h
      simp [lookupFile, removeFile, createFile, config_ne_tmp, heq]

/-- Serialization followed by parsing restores the record. -/
theorem parse_serialize (inner : ConfigInner) :
    parseConfig (serializeConfig inner) = .ok inner := rfl

/-- C1: whenever `create_and_persist` returns an error, the content (or
absence) of the file at the canonical configuration path is exactly what
it was before the call; moreover every individual step before the rename
(the validator's probe cycle, creating the parent directory, creating
the temporary file, writing the bytes, the sync) leaves the canonical
file untouched, so an interruption before the rename also preserves it. -/
theorem persist_failure_preserves_canonical :
    (∀ fs pd ec e, (create_and_persist fs pd ec).fst = .error e →
      lookupFile (create_and_persist fs pd ec).snd config_file_path
        = lookupFile fs config_file_path)
  ∧ (∀ fs pd, lookupFile (validate_projects_directory fs pd).snd config_file_path
      = lookupFile fs config_file_path)
  ∧ (∀ fs fs', create_dir_all fs app_config_dir = .ok fs' →
      lookupFile fs' config_file_path = lookupFile fs config_file_path)
  ∧ (∀ fs fs', file_create fs tmp_file_path = .ok fs' →
      lookupFile fs' config_file_path = lookupFile fs config_file_path)
  ∧ (∀ fs fs' d, write_all fs tmp_file_path d = .ok fs' →
      lookupFile fs' config_file_path = lookupFile fs config_file_path)
  ∧ (∀ fs, sync_step fs = fs) := by
  refine ⟨?_, lookup_validate_snd, lookup_mkdir, lookup_tmp_create,
    fun fs fs' d => lookup_write fs fs' d, sync_step_eq⟩
  intro fs pd ec e h
  rcases hr : create_and_persist fs pd ec with ⟨res, fs'⟩
  rw [hr] at h
  dsimp only at h
  subst h
  dsimp only
  unfold create_and_persist at hr
  by_cases hec : rust_trim ec = ""
  · rw [if_pos hec] at hr
    injection hr with h1 h2
    rw [← h2]
  · rw [if_neg hec] at hr
    rcases hv : validate_projects_directory fs pd with ⟨rv, fs₁⟩
    rw [hv] at hr
    have hv1 : lookupFile fs₁ config_file_path = lookupFile fs config_file_path := by
      have := lookup_validate_snd fs pd
      rw [hv] at this
      exact this
    cases rv with
    | error e' =>
      dsimp only at hr
      injection hr with h1 h2
      rw [← h2]
      exact hv1
    | ok u =>
      dsimp only at hr
      rcases hm : create_dir_all fs₁ app_config_dir with m | fs₂
      · rw [hm] at hr
        dsimp only at hr
        injection hr with h1 h2
        rw [← h2]
        exact hv1
      · rw [hm] at hr
        dsimp only at hr
        have hm1 := (lookup_mkdir fs₁ fs₂ hm).trans hv1
        rcases hc : file_create fs₂ tmp_file_path with m | fs₃
        · rw [hc] at hr
          dsimp only at hr
          injection hr with h1 h2
          rw [← h2]
          exact hm1
        · rw [hc] at hr
          dsimp only at hr
          have hc1 := (lookup_tmp_create fs₂ fs₃ hc).trans hm1
          rcases hw : write_all fs₃ tmp_file_path
              (serializeConfig ⟨pd, rust_trim ec⟩) with m | fs₄
          · rw [hw] at hr
            dsimp only at hr
            injection hr with h1 h2
            rw [← h2]
            exact hc1
          · rw [hw] at hr
            dsimp only at hr
            rw [sync_step_eq] at hr
            have hw1 := (lookup_write fs₃ fs₄ _ hw).trans hc1
            rcases hren : rename fs₄ tmp_file_path config_file_path with m | fs₆
            · rw [hren] at hr
              dsimp only at hr
              injection hr with h1 h2
              rw [← h2]
              exact hw1
            · rw [hren] at hr
              dsimp only at hr
              injection hr with h1 h2
              exact absurd h1.symm (by simp)

/-- C1 witness: a failing save (blank editor command) leaves the
canonical file exactly as it was. -/
theorem persist_failure_preserves_canonical_witness :
    lookupFile (create_and_persist fsOk "/p" " ").snd config_file_path
      = lookupFile fsOk config_file_path :=
  persist_failure_preserves_canonical.1 fsOk "/p" " "
    (.Validation (.EmptyField "editor_cmd")) (by rfl)

/-- Under a valid directory and no environmental I/O failures (the sync
outcome is unconstrained), the persist protocol succeeds: it returns the
trimmed record, publishes its serialization at the canonical path, and
leaves the directory set and permission maps it depends on intact. -/
theorem persist_success_facts (fs : FileSys) (pd ec : String)
    (hec : rust_trim ec ≠ "") (hne : pd ≠ "")
    (hdir : fs.dirs pd = true) (hrd : fs.readDirDenied pd = false)
    (hwr : fs.createFileDenied (probe_path pd) = false)
    (hmk : fs.createDirFails = false)
    (htmp : fs.createFileDenied tmp_file_path = false)
    (hwa : fs.writeAllFails = false) (hrn : fs.renameFails = false) :
    (create_and_persist fs pd ec).fst = .ok ⟨pd, rust_trim ec⟩
  ∧ lookupFile (create_and_persist fs pd ec).snd config_file_path
      = some (serializeConfig ⟨pd, rust_trim ec⟩)
  ∧ (create_and_persist fs pd ec).snd.dirs pd = true
  ∧ (create_and_persist fs pd ec).snd.readDirDenied = fs.readDirDenied
  ∧ (create_and_persist fs pd ec).snd.createFileDenied = fs.createFileDenied
  ∧ (create_and_persist fs pd ec).snd.readFileDenied = fs.readFileDenied := by
  have hv := validate_ok_of fs pd hne hdir hrd hwr
  have htc := config_ne_tmp
  unfold create_and_persist
  rw [if_neg hec, hv]
  simp only [create_dir_all, file_create, write_all, sync_step_eq, rename,
    createFile, removeFile, lookupFile, hmk, htmp, hwa, hrn]
  simp [htc, hdir, hmk, htmp, hwa, hrn]

/-- C6 counterexample: on a filesystem where `sync_all` fails,
`create_and_persist` nevertheless succeeds — the failing sync step is
silently ignored (`f.sync_all().ok()`), not reported as an Io error. -/
theorem io_failure_reporting_cex :
    sync_all fsSyncFail = .error "sync_all failed"
  ∧ (create_and_persist fsSyncFail "/p" "code").fst = .ok ⟨"/p", "code"⟩ :=
  ⟨rfl, rfl⟩

/-- C6 amended: a failure in creating the parent directory, creating the
temporary file, writing the bytes, or renaming over the target is
reported to the caller as an `Io` error; a failure of the sync step is
ignored and the save succeeds regardless of it; and the rename is the
only step that makes new content visible under the canonical name (a
successful rename publishes exactly the temporary file's content). -/
theorem io_failure_reporting_amended :
    (∀ fs pd ec, rust_trim ec ≠ "" →
      (validate_projects_directory fs pd).fst = .ok () →
      fs.createDirFails = true →
      (create_and_persist fs pd ec).fst = .error (.Io "create_dir_all failed"))
  ∧ (∀ fs pd ec, rust_trim ec ≠ "" →
      (validate_projects_directory fs pd).fst = .ok () →
      fs.createDirFails = false → fs.createFileDenied tmp_file_path = true →
      (create_and_persist fs pd ec).fst = .error (.Io "File create failed"))
  ∧ (∀ fs pd ec, rust_trim ec ≠ "" →
      (validate_projects_directory fs pd).fst = .ok () →
      fs.createDirFails = false → fs.createFileDenied tmp_file_path = false →
      fs.writeAllFails = true →
      (create_and_persist fs pd ec).fst = .error (.Io "write_all failed"))
  ∧ (∀ fs pd ec, rust_trim ec ≠ "" →
      (validate_projects_directory fs pd).fst = .ok () →
      fs.createDirFails = false → fs.createFileDenied tmp_file_path = false →
      fs.writeAllFails = false → fs.renameFails = true →
      (create_and_persist fs pd ec).fst = .error (.Io "rename failed"))
  ∧ (∀ fs pd ec, rust_trim ec ≠ "" →
      (validate_projects_directory fs pd).fst = .ok () →
      fs.createDirFails = false → fs.createFileDenied tmp_file_path = false →
      fs.writeAllFails = false → fs.renameFails = false →
      (create_and_persist fs pd ec).fst = .ok ⟨pd, rust_trim ec⟩
        ∧ lookupFile (create_and_persist fs pd ec).snd config_file_path
            = some (serializeConfig ⟨pd, rust_trim ec⟩))
  ∧ (∀ fs fs', rename fs tmp_file_path config_file_path = .ok fs' →
      lookupFile fs' config_file_path = lookupFile fs tmp_file_path) := by
  refine ⟨?_, ?_, ?_, ?_, ?_, lookup_rename⟩
  · intro fs pd ec hec hv hcd
    unfold create_and_persist
    rw [if_neg hec, validate_ok_eq fs pd hv]
    simp [create_dir_all, removeFile, createFile, hcd]
  · intro fs pd ec hec hv hcd htmp
    unfold create_and_persist
    rw [if_neg hec, validate_ok_eq fs pd hv]
    simp [create_dir_all, file_create, removeFile, createFile, hcd, htmp]
  · intro fs pd ec hec hv hcd htmp hwa
    unfold create_and_persist
    rw [if_neg hec, validate_ok_eq fs pd hv]
    simp [create_dir_all, file_create, write_all, removeFile, createFile,
      hcd, htmp, hwa]
  · intro fs pd ec hec hv hcd htmp hwa hrn
    unfold create_and_persist
    rw [if_neg hec, validate_ok_eq fs pd hv]
    simp [create_dir_all, file_create, write_all, sync_step_eq, rename,
      removeFile, createFile, hcd, htmp, hwa, hrn]
  · intro fs pd ec hec hv hcd htmp hwa hrn
    obtain ⟨hne, hdir, hrd, hwr⟩ := validate_ok_inv fs pd hv
    obtain ⟨h1, h2, -⟩ :=
      persist_success_facts fs pd ec hec hne hdir hrd hwr hcd htmp hwa hrn
    exact ⟨h1, h2⟩

/-- C6 witness: a failing parent-directory creation is reported as an
`Io` error. -/
theorem io_failure_reporting_witness :
    (create_and_persist fsMkdirFail "/p" "code").fst
      = .error (.Io "create_dir_all failed") :=
  io_failure_reporting_amended.1 fsMkdirFail "/p" "code" (by decide) (by rfl) rfl

/-- C2 counterexample: a directory literally named by a single space is
valid per the directory validator and `"code"` is non-blank, so
`create_and_persist` succeeds; yet the subsequent `load` rejects the
stored record as blank-after-trimming and returns
`NeedsInitialSetup IncompleteData` instead of `Ready`. -/
theorem round_trip_cex :
    (validate_projects_directory fsWsDir " ").fst = .ok ()
  ∧ rust_trim "code" ≠ ""
  ∧ (create_and_persist fsWsDir " " "code").fst = .ok ⟨" ", "code"⟩
  ∧ (load (create_and_persist fsWsDir " " "code").snd).fst
      = .ok (.NeedsInitialSetup .IncompleteData) :=
  ⟨rfl, by decide, rfl, rfl⟩

/-- C2 amended: for every directory that is valid per the directory
validator and additionally non-blank after trimming, and every command
that is non-blank after trimming, under intact configuration-directory
I/O (parent creation, temporary-file creation, write, and rename
succeed, and the canonical file is readable), `create_and_persist`
succeeds and a subsequent `load` returns `Ready` with a record whose
accessors return exactly the directory and the trimmed command. -/
theorem round_trip_amended (fs : FileSys) (pd ec : String)
    (htrim : rust_trim pd ≠ "") (hec : rust_trim ec ≠ "")
    (hdir : fs.dirs pd = true) (hrd : fs.readDirDenied pd = false)
    (hwr : fs.createFileDenied (probe_path pd) = false)
    (hmk : fs.createDirFails = false)
    (htmp : fs.createFileDenied tmp_file_path = false)
    (hwa : fs.writeAllFails = false) (hrn : fs.renameFails = false)
    (hrf : fs.readFileDenied config_file_path = false) :
    (create_and_persist fs pd ec).fst = .ok ⟨pd, rust_trim ec⟩
  ∧ (load (create_and_persist fs pd ec).snd).fst
      = .ok (.Ready ⟨pd, rust_trim ec⟩) := by
  have hne : pd ≠ "" := fun h => htrim (by rw [h]; rfl)
  obtain ⟨hfst, hfile, hdir', hrdp, hcfp, hrfp⟩ :=
    persist_success_facts fs pd ec hec hne hdir hrd hwr hmk htmp hwa hrn
  refine ⟨hfst, ?_⟩
  have hrf' : (create_and_persist fs pd ec).snd.readFileDenied config_file_path
      = false := by rw [hrfp]; exact hrf
  rw [load_config_eq (create_and_persist fs pd ec).snd
    (serializeConfig ⟨pd, rust_trim ec⟩) hfile hrf', parse_serialize]
  have hec2 : rust_trim (rust_trim ec) ≠ "" := by
    rw [rust_trim_idem]; exact hec
  have hrd' : (create_and_persist fs pd ec).snd.readDirDenied pd = false := by
    rw [hrdp]; exact hrd
  have hwr' : (create_and_persist fs pd ec).snd.createFileDenied (probe_path pd)
      = false := by rw [hcfp]; exact hwr
  have hv := validate_ok_of (create_and_persist fs pd ec).snd pd hne hdir' hrd' hwr'
  dsimp only
  rw [if_neg htrim, if_neg hec2, hv]

/-- C2 witness: the round-trip at a concrete valid directory and
command. -/
theorem round_trip_witness :
    (create_and_persist fsOk "/p" "  code  ").fst = .ok ⟨"/p", "code"⟩
  ∧ (load (create_and_persist fsOk "/p" "  code  ").snd).fst
      = .ok (.Ready ⟨"/p", "code"⟩) :=
  round_trip_amended fsOk "/p" "  code  " (by decide) (by decide)
    (by rfl) rfl rfl rfl rfl rfl rfl rfl

/-- C8 counterexample: `load` never trims the stored `editor_cmd`: a
file whose editor command carries surrounding whitespace loads `Ready`
with a record whose `editor_cmd` accessor is not equal to its own
trimmed form. -/
theorem record_invariants_cex :
    (load fsUntrimmed).fst = .ok (.Ready ⟨"/p", " code "⟩)
  ∧ rust_trim " code " ≠ " code " :=
  ⟨rfl, by decide⟩

/-- C8 amended: a record constructed by `load` has both fields non-blank
after trimming and a `projects_directory` that passed the full directory
validation at load time (its `editor_cmd` is not necessarily trimmed);
a record constructed by `create_and_persist` carries exactly the given
directory string (nonempty, validated at save time) and the trimmed,
nonempty command. -/
theorem record_invariants_amended (fs : FileSys) (inner : ConfigInner) :
    ((load fs).fst = .ok (.Ready inner) →
      rust_trim inner.projects_directory ≠ ""
      ∧ rust_trim inner.editor_cmd ≠ ""
      ∧ (validate_projects_directory fs inner.projects_directory).fst = .ok ())
  ∧ (∀ pd ec, (create_and_persist fs pd ec).fst = .ok inner →
      inner.projects_directory = pd ∧ inner.editor_cmd = rust_trim ec
      ∧ rust_trim inner.editor_cmd = inner.editor_cmd
      ∧ inner.editor_cmd ≠ "" ∧ inner.projects_directory ≠ ""
      ∧ (validate_projects_directory fs pd).fst = .ok ()) := by
  constructor
  · intro h
    unfold load at h
    split at h
    · exact absurd h (by simp)
    · rcases hread : read_to_string fs config_file_path with msg | d
      · rw [hread] at h
        exact absurd h (by simp)
      · rw [hread] at h
        dsimp only at h
        rcases hp : parseConfig d with msg | inner'
        · rw [hp] at h
          dsimp only at h
          split at h
          · exact absurd h (by simp)
          · exact absurd h (by simp)
        · rw [hp] at h
          dsimp only at h
          by_cases h1 : rust_trim inner'.projects_directory = ""
          · rw [if_pos h1] at h
            exact absurd h (by simp)
          · rw [if_neg h1] at h
            by_cases h2 : rust_trim inner'.editor_cmd = ""
            · rw [if_pos h2] at h
              exact absurd h (by simp)
            · rw [if_neg h2] at h
              rcases hv : validate_projects_directory fs inner'.projects_directory
                with ⟨rv, fs₁⟩
              rw [hv] at h
              cases rv with
              | error e' =>
                dsimp only at h
                exact absurd h (by simp)
              | ok u =>
                cases u
                dsimp only at h
                have hinner : inner' = inner := by simpa using h
                subst hinner
                exact ⟨h1, h2, by rw [hv]⟩
  · intro pd ec h
    rcases hr : create_and_persist fs pd ec with ⟨res, fs'⟩
    rw [hr] at h
    dsimp only at h
    subst h
    unfold create_and_persist at hr
    by_cases hec : rust_trim ec = ""
    · rw [if_pos hec] at hr
      exact absurd (congrArg Prod.fst hr) (by simp)
    · rw [if_neg hec] at hr
      rcases hv : validate_projects_directory fs pd with ⟨rv, fs₁⟩
      rw [hv] at hr
      cases rv with
      | error e' =>
        dsimp only at hr
        exact absurd (congrArg Prod.fst hr) (by simp)
      | ok u =>
        cases u
        dsimp only at hr
        have hvfst : (validate_projects_directory fs pd).fst = .ok () := by
          rw [hv]
        have hne := (validate_ok_inv fs pd hvfst).1
        rcases hm : create_dir_all fs₁ app_config_dir with m | fs₂ <;>
          rw [hm] at hr <;> dsimp only at hr
        · exact absurd (congrArg Prod.fst hr) (by simp)
        rcases hc : file_create fs₂ tmp_file_path with m | fs₃ <;>
          rw [hc] at hr <;> dsimp only at hr
        · exact absurd (congrArg Prod.fst hr) (by simp)
        rcases hw : write_all fs₃ tmp_file_path
            (serializeConfig ⟨pd, rust_trim ec⟩) with m | fs₄ <;>
          rw [hw] at hr <;> dsimp only at hr
        · exact absurd (congrArg Prod.fst hr) (by simp)
        rw [sync_step_eq] at hr
        rcases hren : rename fs₄ tmp_file_path config_file_path with m | fs₆ <;>
          rw [hren] at hr <;> dsimp only at hr
        · exact absurd (congrArg Prod.fst hr) (by simp)
        have hinner : (⟨pd, rust_trim ec⟩ : ConfigInner) = inner := by
          have := congrArg Prod.fst hr
          simpa using this
        subst hinner
        exact ⟨rfl, rfl, rust_trim_idem ec, hec, hne, rfl⟩

/-- C8 witness: the fields of a load-constructed record satisfy the
amended invariants. -/
theorem record_invariants_witness :
    rust_trim " code " ≠ ""
  ∧ (validate_projects_directory fsUntrimmed "/p").fst = .ok () :=
  ((record_invariants_amended fsUntrimmed ⟨"/p", " code "⟩).1 (by rfl)).2

end Rustm
